import Mathlib

/-!
Verification of the DeepFocus session/ambient core (src/App.jsx).

The program is a single-file React focus timer. We embed its core shallowly:

* JavaScript numbers become rationals (every operation the core performs —
  comparisons, min/max, addition, multiplication by 60, division by 100 —
  is exact on the values the core handles, so the double/ℚ gap is inert).
* The React state variables become fields of explicit state structures;
  each event handler and effect body becomes a pure state-transition
  function.
* Persisted JSON becomes an inductive `Json` value; property access on a
  parsed value becomes `getField` (returning `none` for JavaScript's
  `undefined`).
* The Web Audio graph becomes an explicit record of allocated nodes and
  connections; object identity of audio nodes is modelled by numeric ids
  drawn from a fresh-id counter, and the side effects of a command are
  recorded as an event trace.
-/

namespace DeepFocus

/-- Timer mode: the string values given as the source code strings focus and
break (`brk` stands for the source's break mode; break is a Lean keyword). -/
inductive Mode where
  | focus
  | brk
deriving DecidableEq

/-- Ambient profile: the four values of AMBIENT_OPTIONS (App.jsx lines 19-24). -/
inductive Ambient where
  | off
  | white
  | rain
  | forest
deriving DecidableEq

/-- A task entry as persisted: the schema fields id/title/done (App.jsx §tasks). -/
structure Task where
  id : String
  title : String
  done : Bool
deriving DecidableEq

/-- The persisted snapshot: the eight fields of the object written to
localStorage (App.jsx lines 233-242) and returned by getInitialState. -/
@[ext]
structure Snapshot where
  focusMinutes : ℚ
  breakMinutes : ℚ
  mode : Mode
  secondsLeft : ℚ
  completedSessions : ℚ
  tasks : List Task
  ambient : Ambient
  volume : ℚ
deriving DecidableEq

/-- The in-process session state: the React state variables in declaration
order (App.jsx lines 95-106); `isRunning` is not persisted and starts false. -/
@[ext]
structure AppState where
  focusMinutes : ℚ
  breakMinutes : ℚ
  mode : Mode
  secondsLeft : ℚ
  isRunning : Bool
  completedSessions : ℚ
  tasks : List Task
  ambient : Ambient
  volume : ℚ
deriving DecidableEq

/-! ## JSON model (the value space of JSON.parse) -/

/-- A parsed JSON value. JSON numbers are modelled as rationals (JSON has no
NaN/Infinity literals, so every parsed number is an honest number). -/
inductive Json where
  | null
  | bool (b : Bool)
  | num (q : ℚ)
  | str (s : String)
  | arr (items : List Json)
  | obj (fields : List (String × Json))

/-- First-match association lookup inside a JSON object. -/
def lookupField : List (String × Json) → String → Option Json
  | [], _ => none
  | (k', v) :: rest, k => if k' = k then some v else lookupField rest k

/-- JavaScript property access `parsed.k` on a parsed value: a field of an
object, `undefined` (here `none`) on objects lacking the field and on every
non-object primitive/array. (Access on `null` throws in JavaScript; the one
place the source accesses fields, getInitialState, wraps the access in
try/catch and falls back to the defaults, which `sanitize` mirrors.) -/
def getField : Json → String → Option Json
  | .obj fields, k => lookupField fields k
  | _, _ => none

/- Field-name constants of the persisted schema. -/

def kFocusMinutes : String := "focusMinutes"

def kBreakMinutes : String := "breakMinutes"

def kMode : String := "mode"

def kSecondsLeft : String := "secondsLeft"

def kCompletedSessions : String := "completedSessions"

def kTasks : String := "tasks"

def kAmbient : String := "ambient"

def kVolume : String := "volume"

def kId : String := "id"

def kTitle : String := "title"

def kDone : String := "done"

/-! ## StateValidator (clampNumber / getInitialState, App.jsx lines 28-82) -/

/-- clampNumber (App.jsx lines 28-34): a non-number (including a missing
field, i.e. `none`) yields the fallback; a number is clamped with
Math.min(Math.max(value, min), max). Parsed JSON numbers are never NaN. -/
def clampNumber (value : Option Json) (lo hi fallback : ℚ) : ℚ :=
  match value with
  | some (.num q) => min (max q lo) hi
  | _ => fallback

/-- JavaScript truthiness of a (possibly missing) JSON value, as used by
`Boolean(task.done)` (App.jsx line 66). -/
def truthy : Option Json → Bool
  | some (.bool b) => b
  | some (.num q) => decide (q ≠ 0)
  | some (.str s) => decide (s ≠ "")
  | some .null => false
  | some (.arr _) => true
  | some (.obj _) => true
  | none => false

/-- The task filter+map of getInitialState (App.jsx lines 60-67): keep an
entry only when it is truthy with string `id` and `title` (property access on
a non-object yields `undefined`, so only objects survive), and coerce `done`
by truthiness. `Task` carries the schema fields. -/
def toTask (j : Json) : Option Task :=
  match j with
  | .obj fields =>
    match lookupField fields kId, lookupField fields kTitle with
    | some (.str i), some (.str t) => some ⟨i, t, truthy (lookupField fields kDone)⟩
    | _, _ => none
  | _ => none

/-- `ambientValues.includes(parsed.ambient)` (App.jsx lines 55, 76): keep a
recognized ambient string, otherwise the default off. -/
def parseAmbient : Option Json → Ambient
  | some (.str s) =>
    if s = "white" then .white
    else if s = "rain" then .rain
    else if s = "forest" then .forest
    else if s = "off" then .off
    else .off
  | _ => .off

/-- The defaults object of getInitialState (App.jsx lines 37-46). -/
def defaults : Snapshot :=
  { focusMinutes := 25
    breakMinutes := 5
    mode := .focus
    secondsLeft := 25 * 60
    completedSessions := 0
    tasks := []
    ambient := .off
    volume := 40 }

/-- `parsed.mode === 'break' ? 'break' : 'focus'` (App.jsx line 56), as the
local safeMode of getInitialState lifted to a named function. -/
def safeModeOf (fields : List (String × Json)) : Mode :=
  match lookupField fields kMode with
  | some (.str s) => if s = "break" then .brk else .focus
  | _ => .focus

/-- The local safeFocus of getInitialState (App.jsx line 57). -/
def safeFocusOf (fields : List (String × Json)) : ℚ :=
  clampNumber (lookupField fields kFocusMinutes) 5 120 defaults.focusMinutes

/-- The local safeBreak of getInitialState (App.jsx line 58). -/
def safeBreakOf (fields : List (String × Json)) : ℚ :=
  clampNumber (lookupField fields kBreakMinutes) 1 45 defaults.breakMinutes

/-- The local maxSeconds of getInitialState (App.jsx line 59): the derived
duration of the sanitized mode, computed from the sanitized minutes. -/
def maxSecondsOf (fields : List (String × Json)) : ℚ :=
  (if safeModeOf fields = .focus then safeFocusOf fields else safeBreakOf fields) * 60

/-- The local safeTasks of getInitialState (App.jsx lines 60-67). -/
def safeTasksOf (fields : List (String × Json)) : List Task :=
  match lookupField fields kTasks with
  | some (.arr items) => items.filterMap toTask
  | _ => defaults.tasks

/-- The sanitization half of getInitialState (App.jsx lines 54-78), applied
to a successfully parsed value. A non-object parse result produces the
defaults: on `null` the field accesses throw and the try/catch returns the
defaults; on any other primitive or array every field access is `undefined`,
so every field falls back to its default. The function is total: loading
never raises. -/
def sanitize (parsed : Json) : Snapshot :=
  match parsed with
  | .obj fields =>
    { focusMinutes := safeFocusOf fields
      breakMinutes := safeBreakOf fields
      mode := safeModeOf fields
      secondsLeft :=
        clampNumber (lookupField fields kSecondsLeft) 0 (maxSecondsOf fields) (maxSecondsOf fields)
      completedSessions := clampNumber (lookupField fields kCompletedSessions) 0 100000 0
      tasks := safeTasksOf fields
      ambient := parseAmbient (lookupField fields kAmbient)
      volume := clampNumber (lookupField fields kVolume) 0 100 defaults.volume }
  | _ => defaults

/-- Duration, in seconds, of a snapshot's active mode (spec §3). -/
def snapDuration (s : Snapshot) : ℚ :=
  (if s.mode = .focus then s.focusMinutes else s.breakMinutes) * 60

/-- A snapshot satisfying the §3 invariant block: countdown within the
active mode's duration, durations and volume in range, a non-negative
session count. Mode, ambient and task well-formedness hold by type. -/
def ValidSnap (s : Snapshot) : Prop :=
  5 ≤ s.focusMinutes ∧ s.focusMinutes ≤ 120 ∧
    1 ≤ s.breakMinutes ∧ s.breakMinutes ≤ 45 ∧
    0 ≤ s.secondsLeft ∧ s.secondsLeft ≤ snapDuration s ∧
    0 ≤ s.completedSessions ∧
    0 ≤ s.volume ∧ s.volume ≤ 100

instance (s : Snapshot) : Decidable (ValidSnap s) := by
  unfold ValidSnap
  infer_instance

/-- getInitialState (App.jsx lines 36-82) as a function of the raw stored
value: `none` = key absent (line 50), `some none` = JSON.parse threw and the
catch returned the defaults (line 79), `some (some j)` = parsed to `j`. -/
def loadState : Option (Option Json) → Snapshot
  | none => defaults
  | some none => defaults
  | some (some j) => sanitize j

/-! ## Serialization (the persistence save effect, App.jsx lines 232-254) -/

/-- The mode strings stored in the snapshot. -/
def modeString : Mode → String
  | .focus => "focus"
  | .brk => "break"

/-- The ambient strings stored in the snapshot. -/
def ambientString : Ambient → String
  | .off => "off"
  | .white => "white"
  | .rain => "rain"
  | .forest => "forest"

/-- A task as serialized by JSON.stringify. -/
def serializeTask (t : Task) : Json :=
  .obj [(kId, .str t.id), (kTitle, .str t.title), (kDone, .bool t.done)]

/-- The stateToStore object written by the save effect (App.jsx lines
233-244), as the JSON value JSON.stringify/JSON.parse transport. -/
def serialize (s : Snapshot) : Json :=
  .obj
    [ (kFocusMinutes, .num s.focusMinutes)
    , (kBreakMinutes, .num s.breakMinutes)
    , (kMode, .str (modeString s.mode))
    , (kSecondsLeft, .num s.secondsLeft)
    , (kCompletedSessions, .num s.completedSessions)
    , (kTasks, .arr (s.tasks.map serializeTask))
    , (kAmbient, .str (ambientString s.ambient))
    , (kVolume, .num s.volume) ]

/-- Hydration of the app from a loaded snapshot (App.jsx lines 95-106):
every persisted field is copied and `isRunning` starts false (line 99). -/
def hydrate (snap : Snapshot) : AppState :=
  { focusMinutes := snap.focusMinutes
    breakMinutes := snap.breakMinutes
    mode := snap.mode
    secondsLeft := snap.secondsLeft
    isRunning := false
    completedSessions := snap.completedSessions
    tasks := snap.tasks
    ambient := snap.ambient
    volume := snap.volume }

/-- The snapshot the save effect collects from the current state
(App.jsx lines 233-242): everything but `isRunning`. -/
def toSnapshot (s : AppState) : Snapshot :=
  { focusMinutes := s.focusMinutes
    breakMinutes := s.breakMinutes
    mode := s.mode
    secondsLeft := s.secondsLeft
    completedSessions := s.completedSessions
    tasks := s.tasks
    ambient := s.ambient
    volume := s.volume }

/-! ## TimerEngine (commands and the tick callback, App.jsx lines 256-340, 423-470) -/

/-- Duration, in seconds, of the currently active mode:
`cycleDuration` (App.jsx line 112). -/
def durationSeconds (s : AppState) : ℚ :=
  (if s.mode = .focus then s.focusMinutes else s.breakMinutes) * 60

/-- The body of the one-second interval callback (App.jsx lines 261-278).
The interval exists only while `isRunning` (lines 256-259), so a tick on an
idle state is a no-op; on a running state the callback decrements while more
than one second is left and otherwise flips the mode, recomputes the
countdown from the new mode's duration, and — only when the outgoing mode
was focus — increments `completedSessions`. `isRunning` is never written. -/
def tick (s : AppState) : AppState :=
  if s.isRunning then
    if 1 < s.secondsLeft then { s with secondsLeft := s.secondsLeft - 1 }
    else
      let nextMode : Mode := if s.mode = .focus then .brk else .focus
      let nextDuration := (if nextMode = .focus then s.focusMinutes else s.breakMinutes) * 60
      { s with
        completedSessions :=
          if s.mode = .focus then s.completedSessions + 1 else s.completedSessions
        mode := nextMode
        secondsLeft := nextDuration }
  else s

/-- Entering Running: the spec's start() command, realized in the UI by the
toggle button (App.jsx line 504) pressed while idle. -/
def startTimer (s : AppState) : AppState :=
  { s with isRunning := true }

/-- Leaving Running: the spec's pause() command, realized by the toggle
button pressed while running. -/
def pauseTimer (s : AppState) : AppState :=
  { s with isRunning := false }

/-- handleToggleMode (App.jsx lines 330-334): stop, force the mode, reset
the countdown to the forced mode's duration. -/
def handleToggleMode (nextMode : Mode) (s : AppState) : AppState :=
  { s with
    isRunning := false
    mode := nextMode
    secondsLeft := (if nextMode = .focus then s.focusMinutes else s.breakMinutes) * 60 }

/-- handlePreset (App.jsx lines 322-328). -/
def handlePreset (focus rest : ℚ) (s : AppState) : AppState :=
  { s with
    isRunning := false
    focusMinutes := focus
    breakMinutes := rest
    mode := .focus
    secondsLeft := focus * 60 }

/-- The PRESETS table (App.jsx lines 13-17): the only arguments the UI ever
passes to handlePreset. -/
def PRESETS : List (ℚ × ℚ) := [(25, 5), (50, 10), (15, 3)]

/-- handleResetTimer (App.jsx lines 336-340): completedSessions untouched. -/
def handleResetTimer (s : AppState) : AppState :=
  { s with
    isRunning := false
    mode := .focus
    secondsLeft := s.focusMinutes * 60 }

/-- `Number(event.target.value) || fb` (App.jsx lines 434, 457): a
non-numeric input string parses to NaN, modelled as `none`; NaN and 0 are
falsy and yield the fallback. -/
def numOr (v : Option ℚ) (fb : ℚ) : ℚ :=
  match v with
  | some q => if q = 0 then fb else q
  | none => fb

/-- The focus-duration input's onChange handler (App.jsx lines 431-444):
clamp into [5,120]; reset the countdown only when idle and in focus mode. -/
def handleFocusMinutesChange (v : Option ℚ) (s : AppState) : AppState :=
  let nextFocus := min (max (numOr v 5) 5) 120
  { s with
    focusMinutes := nextFocus
    secondsLeft :=
      if s.isRunning = false ∧ s.mode = .focus then nextFocus * 60 else s.secondsLeft }

/-- The break-duration input's onChange handler (App.jsx lines 454-467):
clamp into [1,45]; reset the countdown only when idle and in break mode. -/
def handleBreakMinutesChange (v : Option ℚ) (s : AppState) : AppState :=
  let nextBreak := min (max (numOr v 1) 1) 45
  { s with
    breakMinutes := nextBreak
    secondsLeft :=
      if s.isRunning = false ∧ s.mode = .brk then nextBreak * 60 else s.secondsLeft }

/-- The timer commands the external driver can issue (spec §4.3/§6). -/
inductive Cmd where
  | start
  | pause
  | tick
  | setMode (m : Mode)
  | setFocusDuration (v : Option ℚ)
  | setBreakDuration (v : Option ℚ)
  | applyPreset (focus rest : ℚ)
  | reset

/-- Command semantics: each constructor dispatches to the source handler. -/
def step : Cmd → AppState → AppState
  | .start, s => startTimer s
  | .pause, s => pauseTimer s
  | .tick, s => tick s
  | .setMode m, s => handleToggleMode m s
  | .setFocusDuration v, s => handleFocusMinutesChange v s
  | .setBreakDuration v, s => handleBreakMinutesChange v s
  | .applyPreset f r, s => handlePreset f r s
  | .reset, s => handleResetTimer s

/-- Side conditions under which a command is issued.
The applyPreset condition models the program itself: only the three PRESETS
buttons ever call handlePreset. The duration-edit condition (idle only) is
the restriction the correction of claim C2 forces: the source accepts
duration edits while running, and those can break the countdown bound. -/
def cmdOK : Cmd → AppState → Prop
  | .setFocusDuration _, s => s.isRunning = false
  | .setBreakDuration _, s => s.isRunning = false
  | .applyPreset f r, _ => (f, r) ∈ PRESETS
  | _, _ => True

/-- States reachable from `s0` by commands whose duration edits happen only
while idle (and whose presets come from the PRESETS table). -/
inductive ReachableIdleEdits (s0 : AppState) : AppState → Prop where
  | refl : ReachableIdleEdits s0 s0
  | step : ∀ c s, ReachableIdleEdits s0 s → cmdOK c s → ReachableIdleEdits s0 (step c s)

/-- The §3 invariants of the session state: countdown within the active
mode's duration, durations and volume in range. -/
def TimerInv (s : AppState) : Prop :=
  0 ≤ s.secondsLeft ∧ s.secondsLeft ≤ durationSeconds s ∧
    5 ≤ s.focusMinutes ∧ s.focusMinutes ≤ 120 ∧
    1 ≤ s.breakMinutes ∧ s.breakMinutes ≤ 45

/-! ## AudioSynthesizer (stopAmbient / startAmbient and the ambient effect,
App.jsx lines 107, 121-218, 284-292)

Web Audio objects are modelled explicitly: every created node gets a fresh
numeric id from a counter (object identity), the current connections are a
list of edges (an edge to `none` is a connection to ctx.destination), and
each command additionally returns the trace of stop/disconnect/create/start
calls it performed, in program order. -/

/-- BiquadFilterNode type strings used by the source. -/
inductive FilterKind where
  | highpass
  | lowpass
  | peaking
deriving DecidableEq

/-- The parameters the source sets on a biquad filter; `q` and `gainDb`
keep the Web Audio defaults (1 and 0) except where the source assigns them. -/
structure BiquadParams where
  freq : ℚ
  q : ℚ
  gainDb : ℚ

/-- The noise buffer built at App.jsx lines 161-167: one channel,
sampleRate*2 frames, sample i = Math.random()*2 - 1. -/
structure NoiseBuffer where
  channels : ℕ
  len : ℕ
  sampleRate : ℕ
  data : ℕ → ℚ

/-- What a created node is. -/
inductive NodeKind where
  | bufferSource (buf : NoiseBuffer) (loop : Bool)
  | gain (value : ℚ)
  | biquad (kind : FilterKind) (params : BiquadParams)

/-- A created audio node: id models object identity. -/
structure AudioNode where
  id : ℕ
  kind : NodeKind

/-- The audio calls a command performs, in program order. -/
inductive AudioEvent where
  | stop (id : ℕ)
  | disconnect (id : ℕ)
  | create (id : ℕ)
  | start (id : ℕ)
deriving DecidableEq

/-- The audioRef container (App.jsx line 107) plus the context's current
connection table and the fresh-id counter. `ctx` holds the sample rate of
the created AudioContext, `none` before one exists. -/
@[ext]
structure AudioRef where
  ctx : Option ℕ
  source : Option ℕ
  nodes : List AudioNode
  edges : List (ℕ × Option ℕ)
  nextId : ℕ

/-- stopAmbient (App.jsx lines 121-140): no-op without an active source;
otherwise stop the source, disconnect every tracked node (removing all its
outgoing connections), and clear the container. -/
def stopAmbient (a : AudioRef) : AudioRef × List AudioEvent :=
  match a.source with
  | none => (a, [])
  | some sid =>
    ({ a with
        source := none
        nodes := []
        edges := a.edges.filter (fun e => ¬ a.nodes.any (fun n => n.id = e.1)) },
      AudioEvent.stop sid :: a.nodes.map (fun n => AudioEvent.disconnect n.id))

/-- startAmbient (App.jsx lines 142-218) for a chosen profile and volume.
`sr` is the sample rate a newly created AudioContext would have; `rand` is
the Math.random() stream consumed by the noise-buffer loop. Following the
source: off stops and returns; otherwise ensure a context, stop any previous
graph, build a fresh 2-second noise buffer, a looping source, a gain at
volume/100, the profile's filters, connect the chain to the destination, and
start the source. Node ids are allocated in creation order:
source, gain, then the profile's filters. -/
def startAmbient (ambient : Ambient) (volume : ℚ) (sr : ℕ) (rand : ℕ → ℚ)
    (a : AudioRef) : AudioRef × List AudioEvent :=
  if ambient = .off then stopAmbient a
  else
    let ctxRate := a.ctx.getD sr
    let a1 := { a with ctx := some ctxRate }
    let stopped := stopAmbient a1
    let a2 := stopped.1
    let frameCount := ctxRate * 2
    let noiseBuffer : NoiseBuffer :=
      { channels := 1, len := frameCount, sampleRate := ctxRate
        data := fun i => rand i * 2 - 1 }
    let srcId := a2.nextId
    let source : AudioNode := ⟨srcId, .bufferSource noiseBuffer true⟩
    let gainId := srcId + 1
    let gainNode : AudioNode := ⟨gainId, .gain (volume / 100)⟩
    let built : List AudioNode × List (ℕ × Option ℕ) :=
      match ambient with
      | .white =>
        ([source, gainNode], [(srcId, some gainId), (gainId, none)])
      | .rain =>
        let highPass : AudioNode := ⟨gainId + 1, .biquad .highpass ⟨800, 1, 0⟩⟩
        let lowPass : AudioNode := ⟨gainId + 2, .biquad .lowpass ⟨7000, 1, 0⟩⟩
        ([source, highPass, lowPass, gainNode],
          [(srcId, some highPass.id), (highPass.id, some lowPass.id),
            (lowPass.id, some gainId), (gainId, none)])
      | .forest =>
        let lowPass : AudioNode := ⟨gainId + 1, .biquad .lowpass ⟨1200, 1, 0⟩⟩
        let peak : AudioNode := ⟨gainId + 2, .biquad .peaking ⟨300, 9 / 10, 2⟩⟩
        ([source, lowPass, peak, gainNode],
          [(srcId, some lowPass.id), (lowPass.id, some peak.id),
            (peak.id, some gainId), (gainId, none)])
      | .off => ([], [])
    ({ a2 with
        source := some srcId
        nodes := built.1
        edges := built.2
        nextId := a2.nextId + built.1.length },
      stopped.2 ++ built.1.map (fun n => AudioEvent.create n.id) ++ [AudioEvent.start srcId])

/-- The ambient slice of the app: the two React state variables and the
audio container. -/
structure AmbientSys where
  ambient : Ambient
  volume : ℚ
  audio : AudioRef

/-- The body of the ambient effect (App.jsx lines 284-292): off stops,
anything else (re)builds via startAmbient. -/
def runAmbientEffect (sr : ℕ) (rand : ℕ → ℚ) (sys : AmbientSys) :
    AmbientSys × List AudioEvent :=
  if sys.ambient = .off then
    let stopped := stopAmbient sys.audio
    ({ sys with audio := stopped.1 }, stopped.2)
  else
    let started := startAmbient sys.ambient sys.volume sr rand sys.audio
    ({ sys with audio := started.1 }, started.2)

/-- The cleanup the previous run of the ambient effect registered: only a
run with a non-off profile returned a cleanup (line 291); the off branch
returned undefined (line 287). -/
def effectCleanup (prevAmbient : Ambient) (sys : AmbientSys) :
    AmbientSys × List AudioEvent :=
  if prevAmbient = .off then (sys, [])
  else
    let stopped := stopAmbient sys.audio
    ({ sys with audio := stopped.1 }, stopped.2)

/-- setAmbient through the option chips (App.jsx line 524) together with the
React semantics that deliver it: setting the identical value bails out (no
re-render, no effect); a different value re-runs the ambient effect, whose
previous cleanup runs first. -/
def setAmbientCmd (p : Ambient) (sr : ℕ) (rand : ℕ → ℚ) (sys : AmbientSys) :
    AmbientSys × List AudioEvent :=
  if p = sys.ambient then (sys, [])
  else
    let prev := sys.ambient
    let sys1 : AmbientSys := { sys with ambient := p }
    let cleaned := effectCleanup prev sys1
    let rerun := runAmbientEffect sr rand cleaned.1
    (rerun.1, cleaned.2 ++ rerun.2)

/-- setVolume through the slider (App.jsx line 538) with the React semantics
that deliver it: an identical value bails out; a different value changes the
identity of the startAmbient callback (volume is in its dependency list,
line 218), so the ambient effect — whose dependencies include startAmbient
(line 292) — re-runs: previous cleanup, then the effect body. -/
def setVolumeCmd (v : ℚ) (sr : ℕ) (rand : ℕ → ℚ) (sys : AmbientSys) :
    AmbientSys × List AudioEvent :=
  if v = sys.volume then (sys, [])
  else
    let prev := sys.ambient
    let sys1 : AmbientSys := { sys with volume := v }
    let cleaned := effectCleanup prev sys1
    let rerun := runAmbientEffect sr rand cleaned.1
    (rerun.1, cleaned.2 ++ rerun.2)

/-- Well-formedness of the audio container: tracked node ids are below the
fresh-id counter, every live connection originates at a tracked node, a
cleared container has no nodes or connections, and at most one connection
reaches the output device (the at-most-one-graph invariant of §3). -/
def audioWF (a : AudioRef) : Bool :=
  a.nodes.all (fun n => n.id < a.nextId) &&
    a.source.all (fun sid => sid < a.nextId) &&
    a.edges.all (fun e => a.nodes.any (fun n => n.id = e.1)) &&
    (a.source.isSome || (a.nodes.isEmpty && a.edges.isEmpty)) &&
    a.edges.countP (fun e => e.2.isNone) ≤ 1

/-- Teardown calls versus build calls in an event trace. -/
def isTeardown : AudioEvent → Bool
  | .stop _ => true
  | .disconnect _ => true
  | .create _ => false
  | .start _ => false

/-- The edges of a linear chain ending at the output device. -/
def pathEdges : List ℕ → List (ℕ × Option ℕ)
  | [] => []
  | [x] => [(x, none)]
  | x :: y :: rest => (x, some y) :: pathEdges (y :: rest)

/-- Modelled from the spec: the filter-chain policy table of §4.4, one
intermediate stage list per profile (the source and gain stages bracket it
in every row). -/
inductive StageSpec where
  | highpass (freq : ℚ)
  | lowpass (freq : ℚ)
  | peakingStage (freq q gainDb : ℚ)

/-- Modelled from the spec: the rows of the §4.4 policy table. -/
def policyChain : Ambient → List StageSpec
  | .off => []
  | .white => []
  | .rain => [.highpass 800, .lowpass 7000]
  | .forest => [.lowpass 1200, .peakingStage 300 (9 / 10) 2]

/-- The node a policy stage prescribes (biquad defaults for the fields the
table does not mention). -/
def stageNode : StageSpec → NodeKind
  | .highpass f => .biquad .highpass ⟨f, 1, 0⟩
  | .lowpass f => .biquad .lowpass ⟨f, 1, 0⟩
  | .peakingStage f q g => .biquad .peaking ⟨f, q, g⟩

/-! ## Shared lemmas -/

/-- Clamping lands in the interval whenever the fallback does. -/
lemma clampNumber_bounds (v : Option Json) (lo hi fb : ℚ) (h1 : lo ≤ fb) (h2 : fb ≤ hi) :
    lo ≤ clampNumber v lo hi fb ∧ clampNumber v lo hi fb ≤ hi := by
  unfold clampNumber
  match v with
  | some (.num q) => exact ⟨le_min (le_max_right q lo) (h1.trans h2), min_le_right _ _⟩
  | some .null | some (.bool _) | some (.str _) | some (.arr _) | some (.obj _) | none =>
    exact ⟨h1, h2⟩

/-- Clamping an in-range number is the identity. -/
lemma clampNumber_id (q lo hi fb : ℚ) (h1 : lo ≤ q) (h2 : q ≤ hi) :
    clampNumber (some (.num q)) lo hi fb = q := by
  change min (max q lo) hi = q
  rw [max_eq_left h1, min_eq_left h2]

/-- The sanitized focus minutes sit in [5, 120]. -/
lemma safeFocusOf_bounds (fields : List (String × Json)) :
    5 ≤ safeFocusOf fields ∧ safeFocusOf fields ≤ 120 :=
  clampNumber_bounds _ 5 120 defaults.focusMinutes (by norm_num [defaults]) (by norm_num [defaults])

/-- The sanitized break minutes sit in [1, 45]. -/
lemma safeBreakOf_bounds (fields : List (String × Json)) :
    1 ≤ safeBreakOf fields ∧ safeBreakOf fields ≤ 45 :=
  clampNumber_bounds _ 1 45 defaults.breakMinutes (by norm_num [defaults]) (by norm_num [defaults])

/-- The derived duration of the sanitized mode is non-negative. -/
lemma maxSecondsOf_nonneg (fields : List (String × Json)) : 0 ≤ maxSecondsOf fields := by
  unfold maxSecondsOf
  rcases safeFocusOf_bounds fields with ⟨hf, _⟩
  rcases safeBreakOf_bounds fields with ⟨hb, _⟩
  split <;> linarith

/-! ## Claims about the validator and persistence (C5, C10, C6, C4) -/

/-- C5: sanitize is total (it never raises: it is a function) and for every
parsed snapshot value — object or not, fields present, malformed or out of
range — its output satisfies the §3 invariant block: durations and volume in
range, a non-negative session count, and a countdown clamped into
[0, duration of the sanitized mode], the duration being derived from the
sanitized mode and sanitized minutes. -/
theorem sanitize_sound (j : Json) :
    5 ≤ (sanitize j).focusMinutes ∧ (sanitize j).focusMinutes ≤ 120 ∧
      1 ≤ (sanitize j).breakMinutes ∧ (sanitize j).breakMinutes ≤ 45 ∧
      0 ≤ (sanitize j).volume ∧ (sanitize j).volume ≤ 100 ∧
      0 ≤ (sanitize j).completedSessions ∧
      0 ≤ (sanitize j).secondsLeft ∧ (sanitize j).secondsLeft ≤ snapDuration (sanitize j) := by
  match j with
  | .null | .bool _ | .num _ | .str _ | .arr _ =>
    refine ⟨?_, ?_, ?_, ?_, ?_, ?_, ?_, ?_, ?_⟩ <;> norm_num [sanitize, defaults, snapDuration]
  | .obj fields =>
    rcases safeFocusOf_bounds fields with ⟨hf1, hf2⟩
    rcases safeBreakOf_bounds fields with ⟨hb1, hb2⟩
    rcases clampNumber_bounds (lookupField fields kVolume) 0 100 defaults.volume
        (by norm_num [defaults]) (by norm_num [defaults]) with ⟨hv1, hv2⟩
    rcases clampNumber_bounds (lookupField fields kCompletedSessions) 0 100000 0
        (by norm_num) (by norm_num) with ⟨hc1, _⟩
    rcases clampNumber_bounds (lookupField fields kSecondsLeft) 0 (maxSecondsOf fields)
        (maxSecondsOf fields) (maxSecondsOf_nonneg fields) le_rfl with ⟨hs1, hs2⟩
    exact ⟨hf1, hf2, hb1, hb2, hv1, hv2, hc1, hs1, hs2⟩

/-- C10: on load, completedSessions is clamped into [0, 100000]: a present
numeric value loads as min(max(value, 0), 100000) — in particular a value
above 100000 loads as exactly 100000 — and a missing or non-numeric value
loads as the fallback 0. -/
theorem completedSessions_clamped (j : Json) :
    (∀ q : ℚ, getField j kCompletedSessions = some (.num q) →
      (sanitize j).completedSessions = min (max q 0) 100000) ∧
    (∀ q : ℚ, getField j kCompletedSessions = some (.num q) → 100000 < q →
      (sanitize j).completedSessions = 100000) ∧
    (getField j kCompletedSessions = none → (sanitize j).completedSessions = 0) ∧
    (∀ s : String, getField j kCompletedSessions = some (.str s) →
      (sanitize j).completedSessions = 0) := by
  match j with
  | .null | .bool _ | .num _ | .str _ | .arr _ =>
    refine ⟨fun q h => ?_, fun q h _ => ?_, fun _ => ?_, fun s h => ?_⟩ <;>
      simp_all [getField, sanitize, defaults]
  | .obj fields =>
    have hproj : (sanitize (Json.obj fields)).completedSessions =
        clampNumber (lookupField fields kCompletedSessions) 0 100000 0 := rfl
    refine ⟨?_, ?_, ?_, ?_⟩
    · intro q h
      simp only [getField] at h
      rw [hproj, h]
      rfl
    · intro q h h100
      simp only [getField] at h
      rw [hproj, h]
      change min (max q 0) 100000 = 100000
      rw [max_eq_left (by linarith), min_eq_right (by linarith)]
    · intro h
      simp only [getField] at h
      rw [hproj, h]
      rfl
    · intro s h
      simp only [getField] at h
      rw [hproj, h]
      rfl

/-- C10 witness: a persisted count of 200001 loads as 100000; a missing
count loads as 0; a string count loads as 0. -/
theorem completedSessions_clamped_witness :
    (sanitize (Json.obj [(kCompletedSessions, Json.num 200001)])).completedSessions = 100000 ∧
      (sanitize (Json.obj [])).completedSessions = 0 ∧
      (sanitize (Json.num 7)).completedSessions = 0 :=
  ⟨(completedSessions_clamped (Json.obj [(kCompletedSessions, Json.num 200001)])).2.1
      200001 rfl (by norm_num),
    (completedSessions_clamped (Json.obj [])).2.2.1 rfl,
    (completedSessions_clamped (Json.num 7)).2.2.1 rfl⟩

/-- An unrecognized ambient value used as test input. -/
def discoValue : String := "disco"

/-- A parsable but schema-violating snapshot: a valid focusMinutes next to a
corrupted ambient field. -/
def c6raw : Json := .obj [(kFocusMinutes, .num 50), (kAmbient, .str discoValue)]

/-- C6 counterexample: a schema-violating persisted value does NOT load as
the full validated defaults — the valid focusMinutes field (50) survives
while only the corrupted ambient field falls back to off, so the loaded
state differs from the defaults. -/
theorem load_defaults_cex :
    (sanitize c6raw).focusMinutes = 50 ∧
      (sanitize c6raw).ambient = .off ∧
      sanitize c6raw ≠ defaults := by
  refine ⟨by decide, by decide, by decide⟩

/-- C6 (amended): loading an absent or unparsable persisted value never
raises and yields exactly the validated defaults; a parsable but
schema-violating value is sanitized field by field — each invalid field is
replaced by its default or clamped, each valid field is preserved — so in
particular an unrecognized ambient value such as disco loads as off, while a
valid focusMinutes alongside it is kept. -/
theorem load_defaults (j : Json) :
    loadState none = defaults ∧
      loadState (some none) = defaults ∧
      (getField j kAmbient = some (.str discoValue) → (sanitize j).ambient = .off) ∧
      (∀ q : ℚ, getField j kFocusMinutes = some (.num q) → 5 ≤ q → q ≤ 120 →
        (sanitize j).focusMinutes = q) := by
  refine ⟨rfl, rfl, ?_, ?_⟩
  · intro h
    match j with
    | .null | .bool _ | .num _ | .str _ | .arr _ => simp [getField] at h
    | .obj fields =>
      simp only [getField] at h
      have : (sanitize (Json.obj fields)).ambient = parseAmbient (lookupField fields kAmbient) :=
        rfl
      rw [this, h]
      rfl
  · intro q h h5 h120
    match j with
    | .null | .bool _ | .num _ | .str _ | .arr _ => simp [getField] at h
    | .obj fields =>
      simp only [getField] at h
      have : (sanitize (Json.obj fields)).focusMinutes = safeFocusOf fields := rfl
      rw [this, safeFocusOf, h, clampNumber_id q 5 120 defaults.focusMinutes h5 h120]

/-- C6 witness: the amended statement at concrete inputs — the absent and
unparsable cases yield the defaults, and on the concrete corrupted snapshot
the disco ambient loads as off while focusMinutes 50 is preserved. -/
theorem load_defaults_witness :
    loadState none = defaults ∧
      loadState (some none) = defaults ∧
      (sanitize c6raw).ambient = .off ∧
      (sanitize c6raw).focusMinutes = 50 :=
  ⟨(load_defaults c6raw).1, (load_defaults c6raw).2.1,
    (load_defaults c6raw).2.2.1 rfl,
    (load_defaults c6raw).2.2.2 50 rfl (by norm_num) (by norm_num)⟩

/-- Round trip of a single task entry. -/
lemma toTask_serializeTask (t : Task) : toTask (serializeTask t) = some t := by
  cases t
  rfl

/-- Round trip of a task list. -/
lemma tasks_roundtrip (l : List Task) : (l.map serializeTask).filterMap toTask = l := by
  induction l with
  | nil => rfl
  | cons t ts ih => simp [List.filterMap_cons, toTask_serializeTask, ih]

/-- The serialized mode string parses back to the same mode. -/
lemma safeModeOf_serialize (s : Snapshot) :
    safeModeOf [ (kFocusMinutes, .num s.focusMinutes)
      , (kBreakMinutes, .num s.breakMinutes)
      , (kMode, .str (modeString s.mode))
      , (kSecondsLeft, .num s.secondsLeft)
      , (kCompletedSessions, .num s.completedSessions)
      , (kTasks, .arr (s.tasks.map serializeTask))
      , (kAmbient, .str (ambientString s.ambient))
      , (kVolume, .num s.volume) ] = s.mode := by
  cases s.mode <;> rfl

/-- C4 (amended): serializing a snapshot that satisfies the §3 invariants
and whose completedSessions does not exceed 100000, then sanitizing the
result, yields the snapshot back unchanged. (The bound is forced by the
load-time clamp of completedSessions; §3 itself imposes no upper bound.) -/
theorem roundtrip (s : Snapshot) (h : ValidSnap s) (hc : s.completedSessions ≤ 100000) :
    sanitize (serialize s) = s := by
  obtain ⟨hf1, hf2, hb1, hb2, hs1, hs2, hc1, hv1, hv2⟩ := h
  have hmode : (sanitize (serialize s)).mode = s.mode := safeModeOf_serialize s
  have hfocus : (sanitize (serialize s)).focusMinutes = s.focusMinutes := by
    have : (sanitize (serialize s)).focusMinutes =
        clampNumber (some (.num s.focusMinutes)) 5 120 defaults.focusMinutes := rfl
    rw [this, clampNumber_id _ _ _ _ hf1 hf2]
  have hbreak : (sanitize (serialize s)).breakMinutes = s.breakMinutes := by
    have : (sanitize (serialize s)).breakMinutes =
        clampNumber (some (.num s.breakMinutes)) 1 45 defaults.breakMinutes := rfl
    rw [this, clampNumber_id _ _ _ _ hb1 hb2]
  have hmax : maxSecondsOf [ (kFocusMinutes, .num s.focusMinutes)
      , (kBreakMinutes, .num s.breakMinutes)
      , (kMode, .str (modeString s.mode))
      , (kSecondsLeft, .num s.secondsLeft)
      , (kCompletedSessions, .num s.completedSessions)
      , (kTasks, .arr (s.tasks.map serializeTask))
      , (kAmbient, .str (ambientString s.ambient))
      , (kVolume, .num s.volume) ] = snapDuration s := by
    unfold maxSecondsOf snapDuration
    rw [safeModeOf_serialize s]
    have hF : safeFocusOf [ (kFocusMinutes, .num s.focusMinutes)
        , (kBreakMinutes, .num s.breakMinutes)
        , (kMode, .str (modeString s.mode))
        , (kSecondsLeft, .num s.secondsLeft)
        , (kCompletedSessions, .num s.completedSessions)
        , (kTasks, .arr (s.tasks.map serializeTask))
        , (kAmbient, .str (ambientString s.ambient))
        , (kVolume, .num s.volume) ] = s.focusMinutes := by
      have : safeFocusOf [ (kFocusMinutes, .num s.focusMinutes)
          , (kBreakMinutes, .num s.breakMinutes)
          , (kMode, .str (modeString s.mode))
          , (kSecondsLeft, .num s.secondsLeft)
          , (kCompletedSessions, .num s.completedSessions)
          , (kTasks, .arr (s.tasks.map serializeTask))
          , (kAmbient, .str (ambientString s.ambient))
          , (kVolume, .num s.volume) ] =
          clampNumber (some (.num s.focusMinutes)) 5 120 defaults.focusMinutes := rfl
      rw [this, clampNumber_id _ _ _ _ hf1 hf2]
    have hB : safeBreakOf [ (kFocusMinutes, .num s.focusMinutes)
        , (kBreakMinutes, .num s.breakMinutes)
        , (kMode, .str (modeString s.mode))
        , (kSecondsLeft, .num s.secondsLeft)
        , (kCompletedSessions, .num s.completedSessions)
        , (kTasks, .arr (s.tasks.map serializeTask))
        , (kAmbient, .str (ambientString s.ambient))
        , (kVolume, .num s.volume) ] = s.breakMinutes := by
      have : safeBreakOf [ (kFocusMinutes, .num s.focusMinutes)
          , (kBreakMinutes, .num s.breakMinutes)
          , (kMode, .str (modeString s.mode))
          , (kSecondsLeft, .num s.secondsLeft)
          , (kCompletedSessions, .num s.completedSessions)
          , (kTasks, .arr (s.tasks.map serializeTask))
          , (kAmbient, .str (ambientString s.ambient))
          , (kVolume, .num s.volume) ] =
          clampNumber (some (.num s.breakMinutes)) 1 45 defaults.breakMinutes := rfl
      rw [this, clampNumber_id _ _ _ _ hb1 hb2]
    rw [hF, hB]
  have hseconds : (sanitize (serialize s)).secondsLeft = s.secondsLeft := by
    have hrepr : (sanitize (serialize s)).secondsLeft =
        clampNumber (some (.num s.secondsLeft)) 0
          (maxSecondsOf [ (kFocusMinutes, .num s.focusMinutes)
            , (kBreakMinutes, .num s.breakMinutes)
            , (kMode, .str (modeString s.mode))
            , (kSecondsLeft, .num s.secondsLeft)
            , (kCompletedSessions, .num s.completedSessions)
            , (kTasks, .arr (s.tasks.map serializeTask))
            , (kAmbient, .str (ambientString s.ambient))
            , (kVolume, .num s.volume) ])
          (maxSecondsOf [ (kFocusMinutes, .num s.focusMinutes)
            , (kBreakMinutes, .num s.breakMinutes)
            , (kMode, .str (modeString s.mode))
            , (kSecondsLeft, .num s.secondsLeft)
            , (kCompletedSessions, .num s.completedSessions)
            , (kTasks, .arr (s.tasks.map serializeTask))
            , (kAmbient, .str (ambientString s.ambient))
            , (kVolume, .num s.volume) ]) := rfl
    rw [hrepr, hmax, clampNumber_id _ _ _ _ hs1 hs2]
  have hsessions : (sanitize (serialize s)).completedSessions = s.completedSessions := by
    have : (sanitize (serialize s)).completedSessions =
        clampNumber (some (.num s.completedSessions)) 0 100000 0 := rfl
    rw [this, clampNumber_id _ _ _ _ hc1 hc]
  have htasks : (sanitize (serialize s)).tasks = s.tasks := by
    have : (sanitize (serialize s)).tasks = (s.tasks.map serializeTask).filterMap toTask := rfl
    rw [this, tasks_roundtrip]
  have hambient : (sanitize (serialize s)).ambient = s.ambient := by
    have : (sanitize (serialize s)).ambient =
        parseAmbient (some (.str (ambientString s.ambient))) := rfl
    rw [this]
    cases s.ambient <;> rfl
  have hvolume : (sanitize (serialize s)).volume = s.volume := by
    have : (sanitize (serialize s)).volume =
        clampNumber (some (.num s.volume)) 0 100 defaults.volume := rfl
    rw [this, clampNumber_id _ _ _ _ hv1 hv2]
  exact Snapshot.ext hfocus hbreak hmode hseconds hsessions htasks hambient hvolume

/-- A snapshot valid per §3 whose session count exceeds the load-time clamp. -/
def c4snap : Snapshot := { defaults with completedSessions := 100001 }

/-- C4 counterexample: the round trip is not the identity on every valid
state — a snapshot with completedSessions = 100001 satisfies every §3
invariant, yet loading its serialization clamps the count to 100000. -/
theorem roundtrip_cex :
    ValidSnap c4snap ∧
      sanitize (serialize c4snap) ≠ c4snap ∧
      (sanitize (serialize c4snap)).completedSessions = 100000 := by
  have hval : ValidSnap c4snap := by
    refine ⟨?_, ?_, ?_, ?_, ?_, ?_, ?_, ?_, ?_⟩ <;> norm_num [c4snap, defaults, snapDuration]
  have hses : (sanitize (serialize c4snap)).completedSessions = 100000 := by
    have hp : (sanitize (serialize c4snap)).completedSessions =
        clampNumber (some (.num c4snap.completedSessions)) 0 100000 0 := rfl
    have hcc : c4snap.completedSessions = 100001 := rfl
    rw [hp, hcc]
    change min (max (100001 : ℚ) 0) 100000 = 100000
    norm_num
  refine ⟨hval, ?_, hses⟩
  intro h
  rw [h] at hses
  have hcc : c4snap.completedSessions = 100001 := rfl
  rw [hcc] at hses
  norm_num at hses

/-- C4 witness: the round trip is the identity on the default snapshot. -/
theorem roundtrip_witness : sanitize (serialize defaults) = defaults :=
  roundtrip defaults
    (by refine ⟨?_, ?_, ?_, ?_, ?_, ?_, ?_, ?_, ?_⟩ <;> norm_num [defaults, snapDuration])
    (by norm_num [defaults])

/-! ## C7: setMode -/

/-- C7: for every prior state and every mode m, setMode(m)
(handleToggleMode) forces mode = m, running = false and
secondsLeft = durationSeconds(m), and never touches completedSessions. -/
theorem setMode_frame (s : AppState) (m : Mode) :
    (handleToggleMode m s).mode = m ∧
      (handleToggleMode m s).isRunning = false ∧
      (handleToggleMode m s).secondsLeft =
        (if m = .focus then s.focusMinutes else s.breakMinutes) * 60 ∧
      (handleToggleMode m s).completedSessions = s.completedSessions :=
  ⟨rfl, rfl, rfl, rfl⟩

/-! ## Tick behavior lemmas -/

/-- A tick while idle does nothing (the interval is not installed). -/
lemma tick_idle (s : AppState) (hr : s.isRunning = false) : tick s = s := by
  unfold tick
  rw [if_neg (by simp [hr])]

/-- A running tick with more than one second left decrements. -/
lemma tick_run_decrement (s : AppState) (hr : s.isRunning = true)
    (hgt : 1 < s.secondsLeft) : tick s = { s with secondsLeft := s.secondsLeft - 1 } := by
  unfold tick
  rw [if_pos hr, if_pos hgt]

/-- A running tick in focus mode about to expire flips to break, counts the
session, and restarts the countdown at the break duration. -/
lemma tick_run_flip_focus (s : AppState) (hr : s.isRunning = true)
    (hle : s.secondsLeft ≤ 1) (hm : s.mode = .focus) :
    tick s = { s with
      completedSessions := s.completedSessions + 1
      mode := .brk
      secondsLeft := s.breakMinutes * 60 } := by
  unfold tick
  rw [if_pos hr, if_neg (not_lt.mpr hle)]
  simp [hm]

/-- A running tick in break mode about to expire flips back to focus without
touching the session count. -/
lemma tick_run_flip_brk (s : AppState) (hr : s.isRunning = true)
    (hle : s.secondsLeft ≤ 1) (hm : s.mode = .brk) :
    tick s = { s with mode := .focus, secondsLeft := s.focusMinutes * 60 } := by
  unfold tick
  rw [if_pos hr, if_neg (not_lt.mpr hle)]
  simp [hm]

/-! ## C2: the countdown invariant -/

/-- Every command issued under its side condition preserves the §3 session
invariants. -/
lemma timerInv_step (c : Cmd) (s : AppState) (hInv : TimerInv s) (hOK : cmdOK c s) :
    TimerInv (step c s) := by
  obtain ⟨h0, h1, hf1, hf2, hb1, hb2⟩ := hInv
  cases c with
  | start => exact ⟨h0, h1, hf1, hf2, hb1, hb2⟩
  | pause => exact ⟨h0, h1, hf1, hf2, hb1, hb2⟩
  | tick =>
    show TimerInv (tick s)
    by_cases hr : s.isRunning = true
    · by_cases hgt : 1 < s.secondsLeft
      · rw [tick_run_decrement s hr hgt]
        refine ⟨?_, ?_, hf1, hf2, hb1, hb2⟩
        · show (0 : ℚ) ≤ s.secondsLeft - 1
          linarith
        · show s.secondsLeft - 1 ≤ durationSeconds s
          linarith
      · have hle : s.secondsLeft ≤ 1 := not_lt.mp hgt
        cases hm : s.mode with
        | focus =>
          rw [tick_run_flip_focus s hr hle hm]
          refine ⟨?_, le_rfl, hf1, hf2, hb1, hb2⟩
          show (0 : ℚ) ≤ s.breakMinutes * 60
          nlinarith
        | brk =>
          rw [tick_run_flip_brk s hr hle hm]
          refine ⟨?_, le_rfl, hf1, hf2, hb1, hb2⟩
          show (0 : ℚ) ≤ s.focusMinutes * 60
          nlinarith
    · have hrf : s.isRunning = false := by
        revert hr
        cases s.isRunning <;> simp
      rw [tick_idle s hrf]
      exact ⟨h0, h1, hf1, hf2, hb1, hb2⟩
  | setMode m =>
    show TimerInv (handleToggleMode m s)
    cases m with
    | focus =>
      refine ⟨?_, le_rfl, hf1, hf2, hb1, hb2⟩
      show (0 : ℚ) ≤ s.focusMinutes * 60
      nlinarith
    | brk =>
      refine ⟨?_, le_rfl, hf1, hf2, hb1, hb2⟩
      show (0 : ℚ) ≤ s.breakMinutes * 60
      nlinarith
  | setFocusDuration v =>
    have hOK' : s.isRunning = false := hOK
    have hnf1 : (5 : ℚ) ≤ min (max (numOr v 5) 5) 120 := le_min (le_max_right _ _) (by norm_num)
    have hnf2 : min (max (numOr v 5) 5) 120 ≤ 120 := min_le_right _ _
    show TimerInv (handleFocusMinutesChange v s)
    simp only [handleFocusMinutesChange]
    by_cases hc : s.isRunning = false ∧ s.mode = Mode.focus
    · rw [if_pos hc]
      refine ⟨?_, ?_, hnf1, hnf2, hb1, hb2⟩
      · show (0 : ℚ) ≤ min (max (numOr v 5) 5) 120 * 60
        nlinarith
      · show min (max (numOr v 5) 5) 120 * 60 ≤
          (if s.mode = Mode.focus then min (max (numOr v 5) 5) 120 else s.breakMinutes) * 60
        rw [hc.2]
        exact le_rfl
    · rw [if_neg hc]
      have hm : s.mode = Mode.brk := by
        cases hmm : s.mode with
        | focus => exact absurd ⟨hOK', hmm⟩ hc
        | brk => rfl
      refine ⟨h0, ?_, hnf1, hnf2, hb1, hb2⟩
      show s.secondsLeft ≤
        (if s.mode = Mode.focus then min (max (numOr v 5) 5) 120 else s.breakMinutes) * 60
      unfold durationSeconds at h1
      rw [hm] at h1 ⊢
      simpa using h1
  | setBreakDuration v =>
    have hOK' : s.isRunning = false := hOK
    have hnb1 : (1 : ℚ) ≤ min (max (numOr v 1) 1) 45 := le_min (le_max_right _ _) (by norm_num)
    have hnb2 : min (max (numOr v 1) 1) 45 ≤ 45 := min_le_right _ _
    show TimerInv (handleBreakMinutesChange v s)
    simp only [handleBreakMinutesChange]
    by_cases hc : s.isRunning = false ∧ s.mode = Mode.brk
    · rw [if_pos hc]
      refine ⟨?_, ?_, hf1, hf2, hnb1, hnb2⟩
      · show (0 : ℚ) ≤ min (max (numOr v 1) 1) 45 * 60
        nlinarith
      · show min (max (numOr v 1) 1) 45 * 60 ≤
          (if s.mode = Mode.focus then s.focusMinutes else min (max (numOr v 1) 1) 45) * 60
        rw [hc.2]
        exact le_rfl
    · rw [if_neg hc]
      have hm : s.mode = Mode.focus := by
        cases hmm : s.mode with
        | focus => rfl
        | brk => exact absurd ⟨hOK', hmm⟩ hc
      refine ⟨h0, ?_, hf1, hf2, hnb1, hnb2⟩
      show s.secondsLeft ≤
        (if s.mode = Mode.focus then s.focusMinutes else min (max (numOr v 1) 1) 45) * 60
      unfold durationSeconds at h1
      rw [hm] at h1 ⊢
      simpa using h1
  | applyPreset f r =>
    have hOK' : (f, r) ∈ PRESETS := hOK
    simp only [PRESETS, List.mem_cons, List.not_mem_nil, or_false, Prod.mk.injEq] at hOK'
    show TimerInv (handlePreset f r s)
    rcases hOK' with ⟨rfl, rfl⟩ | ⟨rfl, rfl⟩ | ⟨rfl, rfl⟩ <;>
      exact ⟨by norm_num [handlePreset], le_rfl, by norm_num [handlePreset],
        by norm_num [handlePreset], by norm_num [handlePreset], by norm_num [handlePreset]⟩
  | reset =>
    show TimerInv (handleResetTimer s)
    refine ⟨?_, le_rfl, hf1, hf2, hb1, hb2⟩
    show (0 : ℚ) ≤ s.focusMinutes * 60
    nlinarith

/-- C2 counterexample: the countdown bound is violated by a command sequence
the claim admits — start from the defaults, start the timer, then shrink the
focus duration to 5 minutes while running: the source leaves secondsLeft at
1500 (App.jsx line 440 only resets it when not running), which exceeds the
new 300-second duration. -/
theorem timer_invariant_cex :
    durationSeconds (step (.setFocusDuration (some 5)) (step .start (hydrate defaults))) <
      (step (.setFocusDuration (some 5)) (step .start (hydrate defaults))).secondsLeft := by
  norm_num [step, handleFocusMinutesChange, startTimer, hydrate, defaults, numOr,
    durationSeconds]

/-- C2 (amended): the §3 invariant 0 ≤ secondsLeft ≤ durationSeconds(mode)
holds in every state reachable from an invariant-satisfying state by start,
pause, tick, setMode, setFocusDuration, setBreakDuration, applyPreset and
reset — provided the duration edits are issued only while the engine is not
running. (Issued while Running, a duration edit leaves secondsLeft untouched
and can push it above the new duration; see the counterexample.) -/
theorem timer_invariant (s0 s : AppState) (h0 : TimerInv s0)
    (hr : ReachableIdleEdits s0 s) :
    0 ≤ s.secondsLeft ∧ s.secondsLeft ≤ durationSeconds s := by
  have hInv : TimerInv s := by
    induction hr with
    | refl => exact h0
    | step c t _ hok ih => exact timerInv_step c t ih hok
  exact ⟨hInv.1, hInv.2.1⟩

/-- C2 witness: the amended invariant at a concrete reachable state — the
defaults hydrated and started. -/
theorem timer_invariant_witness :
    0 ≤ (step Cmd.start (hydrate defaults)).secondsLeft ∧
      (step Cmd.start (hydrate defaults)).secondsLeft ≤
        durationSeconds (step Cmd.start (hydrate defaults)) :=
  timer_invariant (hydrate defaults) _
    (by refine ⟨?_, ?_, ?_, ?_, ?_, ?_⟩ <;> norm_num [hydrate, defaults, durationSeconds])
    (ReachableIdleEdits.step Cmd.start (hydrate defaults) ReachableIdleEdits.refl trivial)

/-! ## C1: the focus→break→focus tick cycle -/

/-- While more than the elapsed ticks remain, iterated ticks only count the
clock down: after k < n ticks from a running state holding n seconds, the
state is unchanged except secondsLeft = n - k. -/
lemma tick_countdown (s : AppState) (n : ℕ) (hr : s.isRunning = true)
    (hs : s.secondsLeft = (n : ℚ)) :
    ∀ k : ℕ, k < n → tick^[k] s = { s with secondsLeft := ((n - k : ℕ) : ℚ) } := by
  intro k
  induction k with
  | zero =>
    intro _
    simp only [Function.iterate_zero, id_eq, Nat.sub_zero]
    rw [← hs]
  | succ k ih =>
    intro hk
    have hk' : k < n := Nat.lt_of_succ_lt hk
    rw [Function.iterate_succ_apply', ih hk']
    have h2 : 1 < n - k := by omega
    have hgt : (1 : ℚ) < ((n - k : ℕ) : ℚ) := by exact_mod_cast h2
    have hstep : tick ({ s with secondsLeft := ((n - k : ℕ) : ℚ) } : AppState) =
        { s with secondsLeft := ((n - k : ℕ) : ℚ) - 1 } :=
      tick_run_decrement { s with secondsLeft := ((n - k : ℕ) : ℚ) } hr hgt
    have hcast : ((n - k : ℕ) : ℚ) - 1 = ((n - (k + 1) : ℕ) : ℚ) := by
      have hkn : k + 1 ≤ n := Nat.le_of_lt hk
      rw [Nat.cast_sub (Nat.le_of_lt hk'), Nat.cast_sub hkn]
      push_cast
      ring
    rw [hstep, hcast]

/-- C1: from a running focus state holding the full focus duration f*60, the
engine transitions exactly once — every strictly earlier tick keeps mode =
focus and the session count unchanged — and the (f*60)-th tick lands in
break with secondsLeft = b*60 and completedSessions incremented by exactly
one, with running preserved throughout; b*60 further ticks return to focus
with completedSessions still incremented by only one. -/
theorem tick_cycle (s : AppState) (f b : ℕ) (hf : 1 ≤ f) (hb : 1 ≤ b)
    (hr : s.isRunning = true) (hm : s.mode = Mode.focus)
    (hfm : s.focusMinutes = (f : ℚ)) (hbm : s.breakMinutes = (b : ℚ))
    (hs : s.secondsLeft = ((f * 60 : ℕ) : ℚ)) :
    (∀ k, k < f * 60 →
      (tick^[k] s).mode = Mode.focus ∧
        (tick^[k] s).completedSessions = s.completedSessions ∧
        (tick^[k] s).isRunning = true) ∧
      (tick^[f * 60] s).mode = Mode.brk ∧
      (tick^[f * 60] s).secondsLeft = ((b * 60 : ℕ) : ℚ) ∧
      (tick^[f * 60] s).completedSessions = s.completedSessions + 1 ∧
      (tick^[f * 60] s).isRunning = true ∧
      (∀ k, k < b * 60 →
        (tick^[f * 60 + k] s).mode = Mode.brk ∧
          (tick^[f * 60 + k] s).completedSessions = s.completedSessions + 1) ∧
      (tick^[f * 60 + b * 60] s).mode = Mode.focus ∧
      (tick^[f * 60 + b * 60] s).secondsLeft = ((f * 60 : ℕ) : ℚ) ∧
      (tick^[f * 60 + b * 60] s).completedSessions = s.completedSessions + 1 ∧
      (tick^[f * 60 + b * 60] s).isRunning = true := by
  have hcd := tick_countdown s (f * 60) hr hs
  have hpre : tick^[f * 60 - 1] s =
      { s with secondsLeft := ((f * 60 - (f * 60 - 1) : ℕ) : ℚ) } := hcd _ (by omega)
  have hone : ((f * 60 - (f * 60 - 1) : ℕ) : ℚ) = 1 := by
    have h : f * 60 - (f * 60 - 1) = 1 := by omega
    rw [h, Nat.cast_one]
  have hs1 : tick^[f * 60] s = { s with
      completedSessions := s.completedSessions + 1
      mode := Mode.brk
      secondsLeft := s.breakMinutes * 60 } := by
    have hsucc : f * 60 = (f * 60 - 1) + 1 := by omega
    conv_lhs => rw [hsucc]
    rw [Function.iterate_succ_apply', hpre, hone]
    have hflip : tick ({ s with secondsLeft := (1 : ℚ) } : AppState) =
        { s with
          completedSessions := s.completedSessions + 1
          mode := Mode.brk
          secondsLeft := s.breakMinutes * 60 } :=
      tick_run_flip_focus { s with secondsLeft := (1 : ℚ) } hr le_rfl hm
    rw [hflip]
  have hs1sec : ({ s with
      completedSessions := s.completedSessions + 1
      mode := Mode.brk
      secondsLeft := s.breakMinutes * 60 } : AppState).secondsLeft = ((b * 60 : ℕ) : ℚ) := by
    show s.breakMinutes * 60 = ((b * 60 : ℕ) : ℚ)
    rw [hbm]
    push_cast
    ring
  have hcd2 := tick_countdown { s with
      completedSessions := s.completedSessions + 1
      mode := Mode.brk
      secondsLeft := s.breakMinutes * 60 } (b * 60) hr hs1sec
  have hiter : ∀ k : ℕ, tick^[f * 60 + k] s = tick^[k] (tick^[f * 60] s) := by
    intro k
    rw [Nat.add_comm (f * 60) k, Function.iterate_add_apply]
  have hpre2 : tick^[b * 60 - 1] ({ s with
      completedSessions := s.completedSessions + 1
      mode := Mode.brk
      secondsLeft := s.breakMinutes * 60 } : AppState) =
      { s with
        completedSessions := s.completedSessions + 1
        mode := Mode.brk
        secondsLeft := ((b * 60 - (b * 60 - 1) : ℕ) : ℚ) } := hcd2 _ (by omega)
  have hone2 : ((b * 60 - (b * 60 - 1) : ℕ) : ℚ) = 1 := by
    have h : b * 60 - (b * 60 - 1) = 1 := by omega
    rw [h, Nat.cast_one]
  have hs2 : tick^[b * 60] ({ s with
      completedSessions := s.completedSessions + 1
      mode := Mode.brk
      secondsLeft := s.breakMinutes * 60 } : AppState) =
      { s with
        completedSessions := s.completedSessions + 1
        mode := Mode.focus
        secondsLeft := s.focusMinutes * 60 } := by
    have hsucc : b * 60 = (b * 60 - 1) + 1 := by omega
    conv_lhs => rw [hsucc]
    rw [Function.iterate_succ_apply', hpre2, hone2]
    have hflip2 : tick ({ s with
        completedSessions := s.completedSessions + 1
        mode := Mode.brk
        secondsLeft := (1 : ℚ) } : AppState) =
        { s with
          completedSessions := s.completedSessions + 1
          mode := Mode.focus
          secondsLeft := s.focusMinutes * 60 } :=
      tick_run_flip_brk { s with
        completedSessions := s.completedSessions + 1
        mode := Mode.brk
        secondsLeft := (1 : ℚ) } hr le_rfl rfl
    rw [hflip2]
  refine ⟨?_, ?_, ?_, ?_, ?_, ?_, ?_, ?_, ?_, ?_⟩
  · intro k hk
    rw [hcd k hk]
    exact ⟨hm, rfl, hr⟩
  · rw [hs1]
  · rw [hs1]
    exact hs1sec
  · rw [hs1]
  · rw [hs1]
    exact hr
  · intro k hk
    rw [hiter k, hs1, hcd2 k hk]
    exact ⟨rfl, rfl⟩
  · rw [hiter (b * 60), hs1, hs2]
  · rw [hiter (b * 60), hs1, hs2]
    show s.focusMinutes * 60 = ((f * 60 : ℕ) : ℚ)
    rw [hfm]
    push_cast
    ring
  · rw [hiter (b * 60), hs1, hs2]
  · rw [hiter (b * 60), hs1, hs2]
    exact hr

/-- A concrete running focus state with one-minute durations. -/
def c1s : AppState :=
  { focusMinutes := 1
    breakMinutes := 1
    mode := .focus
    secondsLeft := 60
    isRunning := true
    completedSessions := 0
    tasks := []
    ambient := .off
    volume := 40 }

/-- C1 witness: the cycle theorem at one-minute durations — 60 ticks flip to
break counting one session, 120 ticks return to focus with the count still
one. -/
theorem tick_cycle_witness :
    (tick^[1 * 60] c1s).mode = Mode.brk ∧
      (tick^[1 * 60] c1s).completedSessions = c1s.completedSessions + 1 ∧
      (tick^[1 * 60 + 1 * 60] c1s).mode = Mode.focus ∧
      (tick^[1 * 60 + 1 * 60] c1s).completedSessions = c1s.completedSessions + 1 :=
  have h := tick_cycle c1s 1 1 (le_refl 1) (le_refl 1) rfl rfl (by norm_num [c1s])
    (by norm_num [c1s]) (by norm_num [c1s])
  ⟨h.2.1, h.2.2.2.1, h.2.2.2.2.2.2.1, h.2.2.2.2.2.2.2.2.1⟩

/-! ## Audio helper lemmas -/

/-- Stopping never changes the fresh-id counter. -/
lemma stopAmbient_nextId (a : AudioRef) : (stopAmbient a).1.nextId = a.nextId := by
  cases h : a.source <;> simp [stopAmbient, h]

/-- Stopping never changes the context. -/
lemma stopAmbient_ctx (a : AudioRef) : (stopAmbient a).1.ctx = a.ctx := by
  cases h : a.source <;> simp [stopAmbient, h]

/-- After stopping, no source is active. -/
lemma stopAmbient_source (a : AudioRef) : (stopAmbient a).1.source = none := by
  cases h : a.source <;> simp [stopAmbient, h]

/-- Stopping a sourceless container is a complete no-op. -/
lemma stopAmbient_of_none (a : AudioRef) (h : a.source = none) : stopAmbient a = (a, []) := by
  simp [stopAmbient, h]

/-- The components of well-formedness, in Prop form. -/
lemma audioWF_spec (a : AudioRef) (h : audioWF a = true) :
    (∀ n ∈ a.nodes, n.id < a.nextId) ∧
      (∀ sid, a.source = some sid → sid < a.nextId) ∧
      (∀ e ∈ a.edges, ∃ n ∈ a.nodes, n.id = e.1) ∧
      (a.source = none → a.nodes = [] ∧ a.edges = []) := by
  simp only [audioWF, Bool.and_eq_true, Bool.or_eq_true, List.all_eq_true,
    decide_eq_true_eq] at h
  obtain ⟨⟨⟨⟨hn, hsrc⟩, he⟩, hempty⟩, _⟩ := h
  refine ⟨hn, ?_, ?_, ?_⟩
  · intro sid hs
    have := hsrc
    rw [hs] at this
    simpa using this
  · intro e he'
    have := he e he'
    rcases List.any_eq_true.mp this with ⟨n, hn', hid⟩
    exact ⟨n, hn', by simpa using hid⟩
  · intro hs
    rw [hs] at hempty
    rcases hempty with hcontra | ⟨h1, h2⟩
    · simp at hcontra
    · exact ⟨List.isEmpty_iff.mp h1, List.isEmpty_iff.mp h2⟩

/-- A cleared container is well-formed. -/
lemma audioWF_cleared (c : Option ℕ) (n : ℕ) :
    audioWF { ctx := c, source := none, nodes := [], edges := [], nextId := n } = true := by
  simp [audioWF]

/-- Stopping a well-formed container clears it completely: the source slot,
node list and connection table all empty, context and counter untouched. -/
lemma stopAmbient_clears (a : AudioRef) (hwf : audioWF a = true) :
    (stopAmbient a).1 =
      { ctx := a.ctx, source := none, nodes := [], edges := [], nextId := a.nextId } := by
  obtain ⟨_, _, hedges, hempty⟩ := audioWF_spec a hwf
  cases h : a.source with
  | none =>
    obtain ⟨hn, he⟩ := hempty h
    rw [stopAmbient_of_none a h]
    exact AudioRef.ext rfl h hn he rfl
  | some sid =>
    simp only [stopAmbient, h]
    refine AudioRef.ext rfl rfl rfl ?_ rfl
    rw [List.filter_eq_nil_iff]
    intro e he'
    rcases hedges e he' with ⟨n, hn', hid⟩
    simp only [decide_not, Bool.not_eq_true', decide_eq_false_iff_not]
    intro hnone
    exact hnone (List.any_eq_true.mpr ⟨n, hn', by simpa using hid⟩)

/-- Stopping a container with an active source emits its stop call followed
by one disconnect per tracked node — teardown calls only. -/
lemma stopAmbient_events_teardown (a : AudioRef) :
    ∀ e ∈ (stopAmbient a).2, isTeardown e = true := by
  cases h : a.source with
  | none => simp [stopAmbient, h]
  | some sid =>
    simp only [stopAmbient, h]
    intro e he
    rcases List.mem_cons.mp he with rfl | hm
    · rfl
    · rcases List.mem_map.mp hm with ⟨n, _, rfl⟩
      rfl

/-- The stop call of the active source is in the teardown trace. -/
lemma stopAmbient_stop_mem (a : AudioRef) (sid : ℕ) (h : a.source = some sid) :
    AudioEvent.stop sid ∈ (stopAmbient a).2 := by
  simp [stopAmbient, h]

/-- The teardown trace of the container with the context ensured is the
teardown trace of the container itself (events depend only on source and
nodes). -/
lemma stopAmbient_events_ctx (a : AudioRef) (c : Option ℕ) :
    (stopAmbient { a with ctx := c }).2 = (stopAmbient a).2 := by
  cases h : a.source <;> simp [stopAmbient, h]

/-- A freshly built graph is well-formed, whatever the previous container
held: the build replaces the node list and connection table wholesale, with
ids drawn above the counter and a single connection to the destination. -/
lemma audioWF_startAmbient (p : Ambient) (hp : p ≠ .off) (v : ℚ) (sr : ℕ)
    (rand : ℕ → ℚ) (a : AudioRef) :
    audioWF (startAmbient p v sr rand a).1 = true := by
  cases p with
  | off => exact absurd rfl hp
  | white =>
    simp [startAmbient, audioWF, stopAmbient_nextId, List.countP_cons]
  | rain =>
    simp [startAmbient, audioWF, stopAmbient_nextId, List.countP_cons]
  | forest =>
    simp [startAmbient, audioWF, stopAmbient_nextId, List.countP_cons]

/-! ## C9: the filter-chain policy -/

/-- C9: for every non-off profile, startAmbient builds exactly the policy
table's chain — the looping noise source, the profile's filter stages in
table order, and a gain stage at volumePercent/100 — connected linearly into
the output device; the noise buffer spans 2 seconds at the context's sample
rate with samples rand(i)*2 - 1, which lie in [-1, 1]; and every node of the
graph (the buffer source included) is freshly allocated at or above the
previous fresh-id counter: nothing is reused from an earlier graph. -/
theorem ambient_chain (a : AudioRef) (p : Ambient) (v : ℚ) (sr : ℕ) (rand : ℕ → ℚ)
    (hp : p ≠ .off) (hrand : ∀ i, 0 ≤ rand i ∧ rand i ≤ 1) :
    ∃ buf : NoiseBuffer,
      (startAmbient p v sr rand a).1.nodes.map AudioNode.kind =
        NodeKind.bufferSource buf true ::
          ((policyChain p).map stageNode ++ [NodeKind.gain (v / 100)]) ∧
      (startAmbient p v sr rand a).1.edges =
        pathEdges ((startAmbient p v sr rand a).1.nodes.map AudioNode.id) ∧
      (startAmbient p v sr rand a).1.source = some a.nextId ∧
      (∀ n ∈ (startAmbient p v sr rand a).1.nodes, a.nextId ≤ n.id) ∧
      buf.channels = 1 ∧ buf.len = a.ctx.getD sr * 2 ∧
      (∀ i, buf.data i = rand i * 2 - 1) ∧
      (∀ i, -1 ≤ buf.data i ∧ buf.data i ≤ 1) := by
  refine ⟨{ channels := 1, len := a.ctx.getD sr * 2, sampleRate := a.ctx.getD sr
            data := fun i => rand i * 2 - 1 }, ?_, ?_, ?_, ?_, rfl, rfl, fun i => rfl, ?_⟩
  · cases p with
    | off => exact absurd rfl hp
    | white => simp [startAmbient, policyChain, stageNode, stopAmbient_nextId]
    | rain => simp [startAmbient, policyChain, stageNode, stopAmbient_nextId]
    | forest => simp [startAmbient, policyChain, stageNode, stopAmbient_nextId]
  · cases p with
    | off => exact absurd rfl hp
    | white => simp [startAmbient, pathEdges, stopAmbient_nextId]
    | rain => simp [startAmbient, pathEdges, stopAmbient_nextId]
    | forest => simp [startAmbient, pathEdges, stopAmbient_nextId]
  · cases p with
    | off => exact absurd rfl hp
    | white => simp [startAmbient, stopAmbient_nextId]
    | rain => simp [startAmbient, stopAmbient_nextId]
    | forest => simp [startAmbient, stopAmbient_nextId]
  · cases p with
    | off => exact absurd rfl hp
    | white =>
      simp only [startAmbient]
      simp [stopAmbient_nextId]
    | rain =>
      simp only [startAmbient]
      simp [stopAmbient_nextId]
      omega
    | forest =>
      simp only [startAmbient]
      simp [stopAmbient_nextId]
      omega
  · intro i
    rcases hrand i with ⟨h0, h1⟩
    constructor
    · show (-1 : ℚ) ≤ rand i * 2 - 1
      linarith
    · show rand i * 2 - 1 ≤ 1
      linarith

/-- C9 witness: the policy chain at a concrete rain activation from an empty
container. -/
theorem ambient_chain_witness :
    ∃ buf : NoiseBuffer,
      (startAmbient .rain 40 2 (fun _ => 1 / 2)
            { ctx := none, source := none, nodes := [], edges := [], nextId := 0 }).1.nodes.map
          AudioNode.kind =
        NodeKind.bufferSource buf true ::
          ((policyChain .rain).map stageNode ++ [NodeKind.gain ((40 : ℚ) / 100)]) ∧
      (startAmbient .rain 40 2 (fun _ => 1 / 2)
            { ctx := none, source := none, nodes := [], edges := [], nextId := 0 }).1.edges =
        pathEdges ((startAmbient .rain 40 2 (fun _ => 1 / 2)
            { ctx := none, source := none, nodes := [], edges := [], nextId := 0 }).1.nodes.map
          AudioNode.id) ∧
      (startAmbient .rain 40 2 (fun _ => 1 / 2)
            { ctx := none, source := none, nodes := [], edges := [], nextId := 0 }).1.source =
        some ({ ctx := none, source := none, nodes := [], edges := [], nextId := 0 } :
          AudioRef).nextId ∧
      (∀ n ∈ (startAmbient .rain 40 2 (fun _ => 1 / 2)
            { ctx := none, source := none, nodes := [], edges := [], nextId := 0 }).1.nodes,
        ({ ctx := none, source := none, nodes := [], edges := [], nextId := 0 } :
          AudioRef).nextId ≤ n.id) ∧
      buf.channels = 1 ∧
      buf.len = ({ ctx := none, source := none, nodes := [], edges := [], nextId := 0 } :
        AudioRef).ctx.getD 2 * 2 ∧
      (∀ i, buf.data i = (fun _ : ℕ => (1 : ℚ) / 2) i * 2 - 1) ∧
      (∀ i, -1 ≤ buf.data i ∧ buf.data i ≤ 1) :=
  ambient_chain { ctx := none, source := none, nodes := [], edges := [], nextId := 0 }
    .rain 40 2 (fun _ => 1 / 2) (by decide) (fun i => by norm_num)

/-! ## C3: setVolume while a graph is active -/

/-- C3 (amended): while a graph is active, changing the volume does NOT
update the gain stage in place — because startAmbient's identity depends on
volume and the ambient effect depends on startAmbient, the effect re-runs:
it stops and disconnects the whole current graph and builds an entirely new
one. The new source is allocated at the old fresh-id counter (a different
object from every old node), every new node's id is disjoint from every old
node's id, and only the new graph's gain stage carries the new volume/100. -/
theorem setVolume_rebuilds (sys : AmbientSys) (v : ℚ) (sr : ℕ) (rand : ℕ → ℚ) (sid : ℕ)
    (hwf : audioWF sys.audio = true) (hamb : sys.ambient ≠ .off) (hv : v ≠ sys.volume)
    (hsrc : sys.audio.source = some sid) :
    (setVolumeCmd v sr rand sys).1.audio.source = some sys.audio.nextId ∧
      (setVolumeCmd v sr rand sys).1.audio.source ≠ sys.audio.source ∧
      (∀ n ∈ (setVolumeCmd v sr rand sys).1.audio.nodes,
        ∀ m ∈ sys.audio.nodes, n.id ≠ m.id) ∧
      (∃ g ∈ (setVolumeCmd v sr rand sys).1.audio.nodes,
        g.kind = NodeKind.gain (v / 100)) := by
  obtain ⟨hids, hsid, -, -⟩ := audioWF_spec sys.audio hwf
  have hsidlt : sid < sys.audio.nextId := hsid sid hsrc
  have hres : (setVolumeCmd v sr rand sys).1.audio =
      (startAmbient sys.ambient v sr rand
        { ctx := sys.audio.ctx, source := none, nodes := [], edges := [],
          nextId := sys.audio.nextId }).1 := by
    simp [setVolumeCmd, if_neg hv, effectCleanup, runAmbientEffect, hamb,
      stopAmbient_clears sys.audio hwf]
  have main : (setVolumeCmd v sr rand sys).1.audio.source = some sys.audio.nextId ∧
      (∀ n ∈ (setVolumeCmd v sr rand sys).1.audio.nodes, sys.audio.nextId ≤ n.id) ∧
      (∃ g ∈ (setVolumeCmd v sr rand sys).1.audio.nodes,
        g.kind = NodeKind.gain (v / 100)) := by
    cases hA : sys.ambient with
    | off => exact absurd hA hamb
    | white =>
      rw [hA] at hres
      simp [startAmbient, stopAmbient] at hres
      rw [hres]
      refine ⟨rfl, ?_, ?_⟩
      · intro n hn
        simp at hn
        rcases hn with rfl | rfl <;> simp
      · exact ⟨⟨sys.audio.nextId + 1, NodeKind.gain (v / 100)⟩, by simp, rfl⟩
    | rain =>
      rw [hA] at hres
      simp [startAmbient, stopAmbient] at hres
      rw [hres]
      refine ⟨rfl, ?_, ?_⟩
      · intro n hn
        simp at hn
        rcases hn with rfl | rfl | rfl | rfl <;> simp <;> omega
      · exact ⟨⟨sys.audio.nextId + 1, NodeKind.gain (v / 100)⟩, by simp, rfl⟩
    | forest =>
      rw [hA] at hres
      simp [startAmbient, stopAmbient] at hres
      rw [hres]
      refine ⟨rfl, ?_, ?_⟩
      · intro n hn
        simp at hn
        rcases hn with rfl | rfl | rfl | rfl <;> simp <;> omega
      · exact ⟨⟨sys.audio.nextId + 1, NodeKind.gain (v / 100)⟩, by simp, rfl⟩
  obtain ⟨h1, h2, h3⟩ := main
  refine ⟨h1, ?_, ?_, h3⟩
  · rw [h1, hsrc]
    intro hcontra
    have : sys.audio.nextId = sid := by simpa using hcontra
    omega
  · intro n hn m hm
    have hn' := h2 n hn
    have hm' := hids m hm
    omega

/-- An app started with no ambient graph. -/
def c3init : AmbientSys :=
  { ambient := .off
    volume := 40
    audio := { ctx := none, source := none, nodes := [], edges := [], nextId := 0 } }

/-- The system after activating the rain profile: source node id 0, graph
ids 0-3. -/
def c3active : AmbientSys := (setAmbientCmd .rain 2 (fun _ => 1 / 2) c3init).1

/-- The system after then changing only the volume to 50. -/
def c3after : AmbientSys := (setVolumeCmd 50 2 (fun _ => 1 / 2) c3active).1

/-- C3 counterexample: with the rain graph active (source node 0), changing
only the volume replaces the source node — afterwards the active source is
the freshly allocated node 4, not the same object as before, refuting "the
noise source buffer and the filter stages are not rebuilt or replaced". -/
theorem setVolume_rebuilds_cex :
    c3active.audio.source = some 0 ∧
      c3after.audio.source = some 4 ∧
      c3after.audio.source ≠ c3active.audio.source := by
  have h1 : c3active.audio.source = some 0 := rfl
  have h2 : c3after.audio.source = some 4 := rfl
  refine ⟨h1, h2, ?_⟩
  rw [h1, h2]
  simp

/-- C3 witness: the amended rebuild statement at the concrete active rain
system. -/
theorem setVolume_rebuilds_witness :
    (setVolumeCmd 50 2 (fun _ => 1 / 2) c3active).1.audio.source =
        some c3active.audio.nextId ∧
      (setVolumeCmd 50 2 (fun _ => 1 / 2) c3active).1.audio.source ≠
        c3active.audio.source ∧
      (∀ n ∈ (setVolumeCmd 50 2 (fun _ => 1 / 2) c3active).1.audio.nodes,
        ∀ m ∈ c3active.audio.nodes, n.id ≠ m.id) ∧
      (∃ g ∈ (setVolumeCmd 50 2 (fun _ => 1 / 2) c3active).1.audio.nodes,
        g.kind = NodeKind.gain ((50 : ℚ) / 100)) :=
  setVolume_rebuilds c3active 50 2 (fun _ => 1 / 2) 0 (by decide) (by decide) (by decide) rfl

/-! ## C8: teardown-before-build and the single-graph invariant -/

/-- The last well-formedness conjunct alone: at most one connection reaches
the destination. -/
lemma audioWF_countP (a : AudioRef) (h : audioWF a = true) :
    a.edges.countP (fun e => e.2.isNone) ≤ 1 := by
  simp only [audioWF, Bool.and_eq_true, decide_eq_true_eq] at h
  exact h.2

/-- The build trace of startAmbient for a non-off profile: the previous
graph's teardown calls first, then only build calls (creates and one start),
ending with the start of the new source, which is the container's next fresh
id. -/
lemma startAmbient_trace (p : Ambient) (hp : p ≠ .off) (v : ℚ) (sr : ℕ)
    (rand : ℕ → ℚ) (a : AudioRef) :
    ∃ u, (startAmbient p v sr rand a).2 = (stopAmbient a).2 ++ u ∧
      (∀ e ∈ u, isTeardown e = false) ∧
      u.getLast? = some (AudioEvent.start a.nextId) ∧
      (startAmbient p v sr rand a).1.source = some a.nextId := by
  cases p with
  | off => exact absurd rfl hp
  | white =>
    refine ⟨[AudioEvent.create a.nextId, AudioEvent.create (a.nextId + 1),
      AudioEvent.start a.nextId], ?_, ?_, ?_, ?_⟩
    · simp [startAmbient, stopAmbient_events_ctx, stopAmbient_nextId]
    · intro e he
      simp at he
      rcases he with rfl | rfl | rfl <;> rfl
    · simp
    · simp [startAmbient, stopAmbient_nextId]
  | rain =>
    refine ⟨[AudioEvent.create a.nextId, AudioEvent.create (a.nextId + 1 + 1),
      AudioEvent.create (a.nextId + 1 + 2), AudioEvent.create (a.nextId + 1),
      AudioEvent.start a.nextId], ?_, ?_, ?_, ?_⟩
    · simp [startAmbient, stopAmbient_events_ctx, stopAmbient_nextId]
    · intro e he
      simp at he
      rcases he with rfl | rfl | rfl | rfl | rfl <;> rfl
    · simp
    · simp [startAmbient, stopAmbient_nextId]
  | forest =>
    refine ⟨[AudioEvent.create a.nextId, AudioEvent.create (a.nextId + 1 + 1),
      AudioEvent.create (a.nextId + 1 + 2), AudioEvent.create (a.nextId + 1),
      AudioEvent.start a.nextId], ?_, ?_, ?_, ?_⟩
    · simp [startAmbient, stopAmbient_events_ctx, stopAmbient_nextId]
    · intro e he
      simp at he
      rcases he with rfl | rfl | rfl | rfl | rfl <;> rfl
    · simp
    · simp [startAmbient, stopAmbient_nextId]

/-- C8: (1) repeating setProfile with the same profile, or setVolume with
the same volume, is a strict no-op — state unchanged, no audio calls, no
rebuild; (2) setVolume preserves well-formedness, whose conjuncts include
the at-most-one-connected-graph bound; (3) switching to a different profile
preserves well-formedness, keeps at most one connection to the output
device, and its call trace splits into a pure-teardown prefix (containing
the stop of the previously active source) followed by a pure-build suffix,
which for a non-off target ends by starting the new source — the old graph
is fully stopped and disconnected before the new one is built and started. -/
theorem ambient_exclusive (sys : AmbientSys) (sr : ℕ) (rand : ℕ → ℚ) :
    setAmbientCmd sys.ambient sr rand sys = (sys, []) ∧
      setVolumeCmd sys.volume sr rand sys = (sys, []) ∧
      (∀ v, audioWF sys.audio = true →
        audioWF (setVolumeCmd v sr rand sys).1.audio = true) ∧
      (∀ p, p ≠ sys.ambient → audioWF sys.audio = true →
        audioWF (setAmbientCmd p sr rand sys).1.audio = true ∧
          (setAmbientCmd p sr rand sys).1.audio.edges.countP (fun e => e.2.isNone) ≤ 1 ∧
          (∃ t u, (setAmbientCmd p sr rand sys).2 = t ++ u ∧
            (∀ e ∈ t, isTeardown e = true) ∧
            (∀ e ∈ u, isTeardown e = false) ∧
            (∀ sid, sys.audio.source = some sid → AudioEvent.stop sid ∈ t) ∧
            (p ≠ .off → ∃ nid, u.getLast? = some (AudioEvent.start nid) ∧
              (setAmbientCmd p sr rand sys).1.audio.source = some nid))) := by
  refine ⟨by simp [setAmbientCmd], by simp [setVolumeCmd], ?_, ?_⟩
  · intro v hwf
    by_cases hv : v = sys.volume
    · simp [setVolumeCmd, hv]
      exact hwf
    · by_cases hA : sys.ambient = .off
      · have hres : (setVolumeCmd v sr rand sys).1.audio = (stopAmbient sys.audio).1 := by
          simp [setVolumeCmd, hv, effectCleanup, runAmbientEffect, hA]
        rw [hres, stopAmbient_clears sys.audio hwf]
        exact audioWF_cleared _ _
      · have hres : (setVolumeCmd v sr rand sys).1.audio =
            (startAmbient sys.ambient v sr rand
              { ctx := sys.audio.ctx, source := none, nodes := [], edges := [],
                nextId := sys.audio.nextId }).1 := by
          simp [setVolumeCmd, hv, effectCleanup, runAmbientEffect, hA,
            stopAmbient_clears sys.audio hwf]
        rw [hres]
        exact audioWF_startAmbient sys.ambient hA v sr rand _
  · intro p hp hwf
    by_cases hA : sys.ambient = .off
    · have hpoff : p ≠ .off := by
        rw [hA] at hp
        exact hp
      have hres : (setAmbientCmd p sr rand sys).1.audio =
          (startAmbient p sys.volume sr rand sys.audio).1 := by
        simp [setAmbientCmd, hp, effectCleanup, runAmbientEffect, hA, hpoff]
      have htr : (setAmbientCmd p sr rand sys).2 =
          (startAmbient p sys.volume sr rand sys.audio).2 := by
        simp [setAmbientCmd, hp, effectCleanup, runAmbientEffect, hA, hpoff]
      obtain ⟨u, hu1, hu2, hu3, hu4⟩ :=
        startAmbient_trace p hpoff sys.volume sr rand sys.audio
      refine ⟨?_, ?_, ⟨(stopAmbient sys.audio).2, u, ?_, ?_, hu2, ?_, ?_⟩⟩
      · rw [hres]
        exact audioWF_startAmbient p hpoff sys.volume sr rand sys.audio
      · rw [hres]
        exact audioWF_countP _ (audioWF_startAmbient p hpoff sys.volume sr rand sys.audio)
      · rw [htr, hu1]
      · exact stopAmbient_events_teardown sys.audio
      · intro sid hs
        exact stopAmbient_stop_mem sys.audio sid hs
      · intro _
        exact ⟨sys.audio.nextId, hu3, by rw [hres]; exact hu4⟩
    · by_cases hpoff : p = .off
      · have hres : (setAmbientCmd p sr rand sys).1.audio =
            { ctx := sys.audio.ctx, source := none, nodes := [], edges := [],
              nextId := sys.audio.nextId } := by
          simp [setAmbientCmd, hp, effectCleanup, runAmbientEffect, hA, hpoff,
            stopAmbient_clears sys.audio hwf, stopAmbient_of_none]
          rw [if_neg (fun h => hA h.symm)]
        have htr : (setAmbientCmd p sr rand sys).2 = (stopAmbient sys.audio).2 := by
          simp [setAmbientCmd, hp, effectCleanup, runAmbientEffect, hA, hpoff,
            stopAmbient_clears sys.audio hwf, stopAmbient_of_none]
          rw [if_neg (fun h => hA h.symm)]
        refine ⟨?_, ?_, ⟨(stopAmbient sys.audio).2, [], ?_, ?_, by simp, ?_, ?_⟩⟩
        · rw [hres]
          exact audioWF_cleared _ _
        · rw [hres]
          simp
        · rw [htr]
          simp
        · exact stopAmbient_events_teardown sys.audio
        · intro sid hs
          exact stopAmbient_stop_mem sys.audio sid hs
        · intro hcontra
          exact absurd hpoff hcontra
      · have hres : (setAmbientCmd p sr rand sys).1.audio =
            (startAmbient p sys.volume sr rand
              { ctx := sys.audio.ctx, source := none, nodes := [], edges := [],
                nextId := sys.audio.nextId }).1 := by
          simp [setAmbientCmd, hp, effectCleanup, runAmbientEffect, hA, hpoff,
            stopAmbient_clears sys.audio hwf]
        obtain ⟨u, hu1, hu2, hu3, hu4⟩ :=
          startAmbient_trace p hpoff sys.volume sr rand
            { ctx := sys.audio.ctx, source := none, nodes := [], edges := [],
              nextId := sys.audio.nextId }
        have htr : (setAmbientCmd p sr rand sys).2 = (stopAmbient sys.audio).2 ++ u := by
          have hstep : (setAmbientCmd p sr rand sys).2 =
              (stopAmbient sys.audio).2 ++
                (startAmbient p sys.volume sr rand
                  { ctx := sys.audio.ctx, source := none, nodes := [], edges := [],
                    nextId := sys.audio.nextId }).2 := by
            simp [setAmbientCmd, hp, effectCleanup, runAmbientEffect, hA, hpoff,
              stopAmbient_clears sys.audio hwf]
          rw [hstep, hu1]
          simp [stopAmbient]
        refine ⟨?_, ?_, ⟨(stopAmbient sys.audio).2, u, htr, ?_, hu2, ?_, ?_⟩⟩
        · rw [hres]
          exact audioWF_startAmbient p hpoff sys.volume sr rand _
        · rw [hres]
          exact audioWF_countP _ (audioWF_startAmbient p hpoff sys.volume sr rand _)
        · exact stopAmbient_events_teardown sys.audio
        · intro sid hs
          exact stopAmbient_stop_mem sys.audio sid hs
        · intro _
          refine ⟨sys.audio.nextId, ?_, by rw [hres]; exact hu4⟩
          simpa using hu3

/-- C8 witness: the conditional parts at a concrete system — switching the
active rain system (graph ids 0-3) to forest tears down before building. -/
theorem ambient_exclusive_witness :
    audioWF (setAmbientCmd .forest 2 (fun _ => 1 / 2) c3active).1.audio = true ∧
      (setAmbientCmd .forest 2 (fun _ => 1 / 2) c3active).1.audio.edges.countP
        (fun e => e.2.isNone) ≤ 1 ∧
      (∃ t u, (setAmbientCmd .forest 2 (fun _ => 1 / 2) c3active).2 = t ++ u ∧
        (∀ e ∈ t, isTeardown e = true) ∧
        (∀ e ∈ u, isTeardown e = false) ∧
        (∀ sid, c3active.audio.source = some sid → AudioEvent.stop sid ∈ t) ∧
        (Ambient.forest ≠ .off → ∃ nid, u.getLast? = some (AudioEvent.start nid) ∧
          (setAmbientCmd .forest 2 (fun _ => 1 / 2) c3active).1.audio.source = some nid)) :=
  (ambient_exclusive c3active 2 (fun _ => 1 / 2)).2.2.2 .forest (by decide) (by decide)

end DeepFocus
